import Mathlib

/-!
Verification development for the convert-format subsystem
(weblate/formats/convert.py): unit adapters, the convert-format base
contract (load, save pieces, create_new_file, is_valid_base_for_new,
add_unit, create_unit) and the four format drivers (HTML, OpenDocument,
IDML, Windows RC), shallowly embedded in Lean.  Text is modelled as
List Char (a Python str is a sequence of codepoints), file content as
List Nat (bytes).
-/

set_option linter.unusedVariables false

namespace Convert

/-! ## Filename-context unit adapter (FileNameUnit.context) -/

/-- Python str.split on the slash character: "a/b" gives two pieces,
a string with no slash gives a singleton, an empty string gives one
empty piece. -/
def splitSlash : List Char → List (List Char)
  | [] => [[]]
  | c :: rest =>
    let r := splitSlash rest
    if c = '/' then [] :: r
    else
      match r with
      | [] => [[c]]
      | h :: t => (c :: h) :: t

/-- Python location.rsplit slash-separator with maxsplit 1: a string
with no slash yields a one-element list, otherwise the two pieces
around the last slash. -/
def pyRsplitSlash (s : List Char) : List (List Char) :=
  let parts := splitSlash s
  match parts with
  | [] => [s]
  | [x] => [x]
  | _ => [List.intercalate ['/'] parts.dropLast, parts.getLastD []]

/-- One element of the FileNameUnit.context generator: indexing the
rsplit result at position 1.  Indexing a one-element list at 1 is an
IndexError in Python, modelled as none. -/
def fileNameContextItem (loc : List Char) : Option (List Char) :=
  (pyRsplitSlash loc)[1]?

/-- FileNameUnit.context: the join over all locations of the rsplit
index-1 element.  The whole computation raises (none) as soon as one
location lacks a slash. -/
def fileNameContext (locs : List (List Char)) : Option (List Char) :=
  (locs.mapM fileNameContextItem).map List.flatten

/-- Whether a location string contains at least one slash, phrased
through the split the code performs. -/
def hasSlash (s : List Char) : Bool :=
  2 ≤ (splitSlash s).length

/-- The substring after the last slash of a location. -/
def afterLastSlash (s : List Char) : List Char :=
  (splitSlash s).getLastD []

lemma splitSlash_ne_nil (s : List Char) : splitSlash s ≠ [] := by
  cases s with
  | nil => simp [splitSlash]
  | cons c rest =>
    simp only [splitSlash]
    by_cases h : c = '/'
    · simp [h]
    · simp only [if_neg h]
      cases splitSlash rest with
      | nil => simp
      | cons a t => simp

lemma fileNameContextItem_eq (l : List Char) :
    fileNameContextItem l =
      if hasSlash l then some (afterLastSlash l) else none := by
  unfold fileNameContextItem pyRsplitSlash hasSlash afterLastSlash
  cases h : splitSlash l with
  | nil => exact absurd h (splitSlash_ne_nil l)
  | cons a t =>
    cases t with
    | nil => simp
    | cons b t2 => simp

lemma mapM_item_of_all (locs : List (List Char))
    (h : locs.all hasSlash = true) :
    locs.mapM fileNameContextItem = some (locs.map afterLastSlash) := by
  induction locs with
  | nil => rfl
  | cons l rest ih =>
    rw [List.all_cons, Bool.and_eq_true] at h
    rw [List.mapM_cons, fileNameContextItem_eq, if_pos h.1, ih h.2]
    rfl

lemma mapM_item_of_missing (locs : List (List Char))
    (h : locs.all hasSlash = false) :
    locs.mapM fileNameContextItem = none := by
  induction locs with
  | nil => simp at h
  | cons l rest ih =>
    rw [List.mapM_cons, fileNameContextItem_eq]
    by_cases hl : hasSlash l
    · rw [List.all_cons, hl, Bool.true_and] at h
      rw [if_pos hl, ih h]
      rfl
    · simp [hl]

/-! ## Convert-format base contract (ConvertFormat) -/

/-- Python exceptions visible in this subsystem: ValueError raised by
create_new_file, add_unit and create_unit; FileNotFoundError from
opening a missing path; AttributeError from reading the name attribute
of a nameless stream; any parse failure from a converter. -/
inductive PyErr where
  | valueErr
  | fileNotFound
  | attributeErr
  | parseErr
deriving DecidableEq, Repr

/-- An open readable byte stream: optional name attribute plus content
bytes.  A file opened from a filesystem path always carries its path as
name; an in-memory BytesIO has none. -/
structure StoreFile where
  name : Option (List Char)
  content : List Nat
deriving DecidableEq, Repr

/-- Argument to load: either a filesystem path or an already open
stream (the hasattr read check in ConvertFormat.load). -/
inductive LoadInput where
  | path (p : List Char)
  | stream (sf : StoreFile)
deriving DecidableEq, Repr

/-- The filesystem: a map from paths to file content bytes. -/
def FS : Type := List Char → Option (List Nat)

/-- A translation unit of the intermediate store, with the fields the
load loop touches. -/
structure CUnit where
  source : List Char
  target : List Char
  richSource : List (List Char)
  richTarget : List (List Char)
  isHeader : Bool
deriving DecidableEq, Repr

/-- The intermediate unit store produced by a converter. -/
structure CStore where
  units : List CUnit
deriving DecidableEq, Repr

/-- The hasattr branch of ConvertFormat.load: a path is opened for
binary read (failing when absent), a stream is used as given. -/
def resolveStorefile (fs : FS) : LoadInput → Except PyErr StoreFile
  | .path p =>
    match fs p with
    | some c => .ok ⟨some p, c⟩
    | none => .error .fileNotFound
  | .stream sf => .ok sf

/-- The per-unit body of the load loop: header units are skipped,
every other unit gets target := source and rich_target := rich_source. -/
def autofillUnit (u : CUnit) : CUnit :=
  if u.isHeader then u
  else { u with target := u.source, richTarget := u.richSource }

/-- The whole adjustment loop of ConvertFormat.load. -/
def loadAdjust (s : CStore) : CStore :=
  ⟨s.units.map autofillUnit⟩

/-- ConvertFormat.load: resolve the storefile, run the format-specific
converter, then auto-fill targets of non-header units.  Any converter
exception propagates. -/
def load (convertfile : StoreFile → Except PyErr CStore) (fs : FS)
    (storefile : LoadInput) : Except PyErr CStore := do
  let sf ← resolveStorefile fs storefile
  let store ← convertfile sf
  return loadAdjust store

/-- ConvertFormat.create_new_file: raises ValueError when base is
falsy, otherwise copies base over filename (shutil.copy). -/
def create_new_file (fs : FS) (filename language : List Char)
    (base : Option (List Char)) : Except PyErr FS :=
  match base with
  | none => .error .valueErr
  | some b =>
    if b.isEmpty then .error .valueErr
    else
      match fs b with
      | none => .error .fileNotFound
      | some content => .ok (fun p => if p = filename then some content else fs p)

/-- ConvertFormat.is_valid_base_for_new: false on a falsy base, else a
trial load whose failure is caught, reported (second component models
the report_error calls) and turned into false. -/
def is_valid_base_for_new (convertfile : StoreFile → Except PyErr CStore)
    (fs : FS) (base : Option (List Char)) (monolingual : Bool) :
    Bool × List (List Char) :=
  match base with
  | none => (false, [])
  | some b =>
    if b.isEmpty then (false, [])
    else
      match load convertfile fs (.path b) with
      | .ok _ => (true, [])
      | .error _ => (false, ["File parse error".data])

/-- ConvertFormat.add_unit: always raises ValueError. -/
def add_unit (store : CStore) (ttkit_unit : CUnit) : Except PyErr CStore :=
  .error .valueErr

/-- ConvertFormat.create_unit: always raises ValueError. -/
def create_unit (store : CStore) (key source : List Char) :
    Except PyErr CUnit :=
  .error .valueErr

/-! ## HTML and OpenDocument converters (the storefile.name access) -/

/-- os.path.basename: the part after the last slash. -/
def basename (p : List Char) : List Char :=
  (splitSlash p).getLastD []

/-- HTMLFormat.convertfile: html2po().convertfile(storefile,
os.path.basename(storefile.name)).  Reading the name attribute of a
nameless stream raises AttributeError; the html2po conversion itself is
an opaque collaborator, abstracted as a function of the content bytes
and the basename. -/
def htmlConvertfile (html2poConvert : List Nat → List Char → CStore)
    (storefile : StoreFile) : Except PyErr CStore :=
  match storefile.name with
  | none => .error .attributeErr
  | some n => .ok (html2poConvert storefile.content (basename n))

/-- OpenDocumentFormat.convertfile: setfilename uses
os.path.basename(storefile.name) before open_odf and build_store run;
the extraction is the same kind of opaque collaborator. -/
def odfConvertfile (odfBuildStore : List Nat → List Char → CStore)
    (storefile : StoreFile) : Except PyErr CStore :=
  match storefile.name with
  | none => .error .attributeErr
  | some n => .ok (odfBuildStore storefile.content (basename n))

/-! ## Windows RC driver (WindowsRCFormat.save_content) -/

/-- Python truthiness of an optional string attribute such as
rcfile.lang: false for None and for the empty string. -/
def truthyOpt : Option (List Char) → Bool
  | none => false
  | some s => !s.isEmpty

/-- The language-tag resolution at the top of
WindowsRCFormat.save_content: defaults LANG_ENGLISH and
SUBLANG_DEFAULT; a truthy rcfile.lang replaces the language, and only
then a truthy rcfile.sublang replaces the sublanguage. -/
def rcResolveLang (rcLang rcSublang : Option (List Char)) :
    List Char × List Char :=
  let lang := "LANG_ENGLISH".data
  let sublang := "SUBLANG_DEFAULT".data
  if truthyOpt rcLang then
    (rcLang.getD [],
      if truthyOpt rcSublang then rcSublang.getD [] else sublang)
  else
    (lang, sublang)

/-- The codepoints of the cp1252 byte range 0x80 to 0x9F: pairs of a
Unicode codepoint and its Windows-1252 byte.  Bytes 0x81, 0x8D, 0x8F,
0x90 and 0x9D are unassigned. -/
def cp1252Table : List (Nat × Nat) :=
  [(0x20AC, 0x80), (0x201A, 0x82), (0x0192, 0x83), (0x201E, 0x84),
   (0x2026, 0x85), (0x2020, 0x86), (0x2021, 0x87), (0x02C6, 0x88),
   (0x2030, 0x89), (0x0160, 0x8A), (0x2039, 0x8B), (0x0152, 0x8C),
   (0x017D, 0x8E), (0x2018, 0x91), (0x2019, 0x92), (0x201C, 0x93),
   (0x201D, 0x94), (0x2022, 0x95), (0x2013, 0x96), (0x2014, 0x97),
   (0x02DC, 0x98), (0x2122, 0x99), (0x0161, 0x9A), (0x203A, 0x9B),
   (0x0153, 0x9C), (0x017E, 0x9E), (0x0178, 0x9F)]

/-- Strict cp1252 encoding of one codepoint, as Python encode with the
cp1252 codec performs it: ASCII and the Latin-1 range 0xA0 to 0xFF map
to themselves, the table covers the remapped 0x80 to 0x9F bytes, and
everything else is a UnicodeEncodeError (none). -/
def encodeCp1252Char (c : Char) : Option Nat :=
  let n := c.toNat
  if n < 0x80 then some n
  else if 0xA0 ≤ n ∧ n ≤ 0xFF then some n
  else cp1252Table.lookup n

/-- outputrclines.encode cp1252: all-or-nothing over the text. -/
def encodeCp1252 (text : List Char) : Option (List Nat) :=
  text.mapM encodeCp1252Char

/-- UTF-16 little-endian code units of one codepoint: BMP codepoints
as two bytes, the rest as a surrogate pair. -/
def utf16leChar (c : Char) : List Nat :=
  let n := c.toNat
  if n < 0x10000 then [n % 256, n / 256 % 256]
  else
    let d := n - 0x10000
    let hi := 0xD800 + d / 0x400
    let lo := 0xDC00 + d % 0x400
    [hi % 256, hi / 256 % 256, lo % 256, lo / 256 % 256]

/-- outputrclines.encode utf-16-le. -/
def utf16le (text : List Char) : List Nat :=
  (text.map utf16leChar).flatten

/-- codecs.BOM_UTF16_LE. -/
def bomUtf16le : List Nat := [0xFF, 0xFE]

/-- The encoding tail of WindowsRCFormat.save_content: try cp1252, and
on UnicodeEncodeError write the UTF-16LE BOM followed by the UTF-16LE
bytes of the whole text. -/
def rcEncodeOutput (outputrclines : List Char) : List Nat :=
  match encodeCp1252 outputrclines with
  | some bs => bs
  | none => bomUtf16le ++ utf16le outputrclines

/-! ## IDML driver (IDMLFormat.convertfile)

The IdMaker and the build_idml_store extraction live in the
translate-toolkit collaborator; what the driver code fixes is that one
IdMaker instance is created before the loop over story entries and
shared by every per-entry store adder. -/

/-- Modelled from the spec: the shared identifier allocator (IdMaker)
of one IDML load, an explicit allocator object passed into each
per-entry extraction call and scoped to one load; handing out the next
unused identifier. -/
structure IdMaker where
  next : Nat
deriving DecidableEq, Repr

/-- Allocate one identifier and advance the allocator. -/
def allocId (m : IdMaker) : Nat × IdMaker :=
  (m.next, ⟨m.next + 1⟩)

/-- A translatable fragment of one story entry, with its local index
inside the entry. -/
structure LUnit where
  idx : Nat
  text : List Char
deriving DecidableEq, Repr

/-- One story entry of the IDML package: an archive member name and
its translatable fragments. -/
structure StoryEntry where
  filename : List Char
  units : List LUnit
deriving DecidableEq, Repr

/-- A unit of the resulting store, carrying its globally allocated
identifier. -/
structure GUnit where
  id : Nat
  filename : List Char
  text : List Char
deriving DecidableEq, Repr

/-- Modelled from the spec: the per-entry extraction
(build_idml_store through the store adder) threading the shared
allocator over the fragments of one entry. -/
def allocUnits (m : IdMaker) (fn : List Char) :
    List LUnit → List GUnit × IdMaker
  | [] => ([], m)
  | u :: rest =>
    let (i, m2) := allocId m
    let (gs, m3) := allocUnits m2 fn rest
    (⟨i, fn, u.text⟩ :: gs, m3)

/-- The loop of IDMLFormat.convertfile over the story entries of the
package, threading the single IdMaker created before the loop. -/
def convertEntries (m : IdMaker) :
    List StoryEntry → List GUnit × IdMaker
  | [] => ([], m)
  | e :: rest =>
    let (gs, m2) := allocUnits m e.filename e.units
    let (gs2, m3) := convertEntries m2 rest
    (gs ++ gs2, m3)

/-- IDMLFormat.convertfile: one fresh IdMaker for the whole load. -/
def idmlConvertfile (entries : List StoryEntry) : List GUnit :=
  (convertEntries ⟨0⟩ entries).fst

/-- Total number of fragments of the package. -/
def totalUnits (entries : List StoryEntry) : Nat :=
  (entries.map (fun e => e.units.length)).sum

end Convert

namespace Convert

/-! ## Claim theorems -/

/-- C1 counterexample: on the locations of the spec example, the
FileNameUnit.context computation does not return
"entry1.xmlentry2.xml"; the second location has no slash, its rsplit
gives a one-element list, and indexing it at 1 raises IndexError, so
the whole computation raises (none). -/
theorem fileNameUnit_context_example_raises :
    fileNameContext ["a/b/entry1.xml:1".data, "entry2.xml:2".data] = none ∧
    fileNameContext ["a/b/entry1.xml:1".data, "entry2.xml:2".data] ≠
      some "entry1.xmlentry2.xml".data := by
  exact ⟨by decide, by decide⟩

/-- C1 amended: the context of a Filename-Context unit is the
concatenation, over the location strings, of the substring after the
last slash, provided every location contains a slash; a location with
no slash makes the computation raise IndexError (no context value), it
is not used as-is. -/
theorem fileNameUnit_context_amended (locs : List (List Char)) :
    ((∀ l ∈ locs, hasSlash l = true) →
      fileNameContext locs =
        some (List.flatten (locs.map afterLastSlash))) ∧
    ((∃ l ∈ locs, hasSlash l = false) → fileNameContext locs = none) := by
  constructor
  · intro h
    unfold fileNameContext
    rw [mapM_item_of_all locs (by rw [List.all_eq_true]; exact h)]
    rfl
  · rintro ⟨l, hmem, hs⟩
    unfold fileNameContext
    rw [mapM_item_of_missing locs ?_]
    · rfl
    · rw [List.all_eq_false]
      exact ⟨l, hmem, by simp [hs]⟩

/-- C1 witness: the amended statement evaluated on concrete locations,
one run where every location has a slash and one where one does not. -/
theorem fileNameUnit_context_amended_witness :
    fileNameContext ["a/b/entry1.xml:1".data, "c/entry2.xml:2".data] =
      some (List.flatten
        (["a/b/entry1.xml:1".data, "c/entry2.xml:2".data].map
          afterLastSlash)) ∧
    fileNameContext ["a/b/entry1.xml:1".data, "entry2.xml:2".data] =
      none :=
  ⟨(fileNameUnit_context_amended _).1 (by decide),
   (fileNameUnit_context_amended _).2 ⟨"entry2.xml:2".data, by decide, by decide⟩⟩

lemma load_ok_eq (convertfile : StoreFile → Except PyErr CStore) (fs : FS)
    (storefile : LoadInput) (s : CStore)
    (h : load convertfile fs storefile = .ok s) :
    ∃ st, s = loadAdjust st := by
  unfold load at h
  cases hsf : resolveStorefile fs storefile with
  | error e =>
    rw [hsf] at h
    simp [Bind.bind, Except.bind] at h
  | ok sf =>
    rw [hsf] at h
    cases hc : convertfile sf with
    | error e =>
      simp [Bind.bind, Except.bind, hc, Functor.map, Except.map] at h
    | ok st =>
      simp only [Bind.bind, Except.bind, hc, Functor.map, Except.map] at h
      cases h
      exact ⟨st, rfl⟩

/-- C2: every unit of a successfully loaded store whose isHeader flag
is false has target equal to source and richTarget equal to
richSource; header units are left alone by the auto-fill loop. -/
theorem load_autofills_target
    (convertfile : StoreFile → Except PyErr CStore) (fs : FS)
    (storefile : LoadInput) (s : CStore) (u : CUnit)
    (hload : load convertfile fs storefile = .ok s)
    (hmem : u ∈ s.units) (hhdr : u.isHeader = false) :
    u.target = u.source ∧ u.richTarget = u.richSource := by
  obtain ⟨st, rfl⟩ := load_ok_eq convertfile fs storefile s hload
  simp only [loadAdjust, List.mem_map] at hmem
  obtain ⟨v, hv, rfl⟩ := hmem
  unfold autofillUnit at hhdr ⊢
  by_cases h : v.isHeader
  · rw [if_pos h] at hhdr
    rw [h] at hhdr
    cases hhdr
  · rw [if_neg h]
    exact ⟨rfl, rfl⟩

/-- C2 witness: a concrete one-unit store, loaded through a concrete
converter, whose unit satisfies the auto-fill equalities. -/
theorem load_autofills_target_witness :
    (⟨"s".data, "s".data, ["r".data], ["r".data], false⟩ : CUnit).target =
      (⟨"s".data, "s".data, ["r".data], ["r".data], false⟩ : CUnit).source ∧
    (⟨"s".data, "s".data, ["r".data], ["r".data], false⟩ : CUnit).richTarget =
      (⟨"s".data, "s".data, ["r".data], ["r".data], false⟩ : CUnit).richSource :=
  load_autofills_target
    (fun _ => .ok ⟨[⟨"s".data, "t".data, ["r".data], ["x".data], false⟩]⟩)
    (fun _ => none) (.stream ⟨none, []⟩)
    ⟨[⟨"s".data, "s".data, ["r".data], ["r".data], false⟩]⟩
    ⟨"s".data, "s".data, ["r".data], ["r".data], false⟩
    rfl (by decide) (by decide)

lemma encodeCp1252_of_all (text : List Char)
    (h : ∀ c ∈ text, (encodeCp1252Char c).isSome = true) :
    encodeCp1252 text =
      some (text.map (fun c => (encodeCp1252Char c).getD 0)) := by
  induction text with
  | nil => rfl
  | cons c rest ih =>
    obtain ⟨v, hv⟩ := Option.isSome_iff_exists.mp (h c (by simp))
    unfold encodeCp1252 at *
    rw [List.mapM_cons, hv, ih (fun x hx => h x (by simp [hx]))]
    simp [hv]

lemma encodeCp1252_of_missing (text : List Char)
    (h : ∃ c ∈ text, encodeCp1252Char c = none) :
    encodeCp1252 text = none := by
  induction text with
  | nil => simp at h
  | cons c rest ih =>
    unfold encodeCp1252 at *
    rw [List.mapM_cons]
    cases hc : encodeCp1252Char c with
    | none => rfl
    | some v =>
      obtain ⟨x, hx, hxn⟩ := h
      rcases List.mem_cons.mp hx with rfl | hx2
      · rw [hc] at hxn; cases hxn
      · rw [ih ⟨x, hx2, hxn⟩]
        rfl

/-- C3: WindowsRCFormat.save_content output encoding.  When every
codepoint of the merged text is Windows-1252-representable the output
is exactly the cp1252 byte per codepoint, with nothing prepended; when
some codepoint is not representable, the UnicodeEncodeError is caught
and the output is the bytes FF FE followed by the UTF-16LE encoding of
the whole text. -/
theorem rc_encoding_fallback (text : List Char) :
    ((∀ c ∈ text, (encodeCp1252Char c).isSome = true) →
      rcEncodeOutput text =
        text.map (fun c => (encodeCp1252Char c).getD 0)) ∧
    ((∃ c ∈ text, encodeCp1252Char c = none) →
      rcEncodeOutput text = 0xFF :: 0xFE :: utf16le text) := by
  constructor
  · intro h
    unfold rcEncodeOutput
    rw [encodeCp1252_of_all text h]
  · intro h
    unfold rcEncodeOutput
    rw [encodeCp1252_of_missing text h]
    rfl

/-- C3 witness: an all-Latin text is written as bare cp1252 bytes, and
a text with a CJK codepoint as BOM bytes FF FE plus UTF-16LE. -/
theorem rc_encoding_fallback_witness :
    rcEncodeOutput "OK".data = [79, 75] ∧
    rcEncodeOutput "中".data = [0xFF, 0xFE, 0x2D, 0x4E] :=
  ⟨((rc_encoding_fallback "OK".data).1 (by decide)).trans (by decide),
   ((rc_encoding_fallback "中".data).2
      ⟨'中', by decide, by decide⟩).trans (by decide)⟩

/-- C5: create_new_file raises ValueError for an absent (falsy) base;
with an existing base file it copies the base bytes over the new
filename; add_unit and create_unit raise ValueError on every input. -/
theorem create_unsupported_spec :
    (∀ (fs : FS) (filename language : List Char),
      create_new_file fs filename language none = .error .valueErr) ∧
    (∀ (fs : FS) (filename language : List Char),
      create_new_file fs filename language (some []) = .error .valueErr) ∧
    (∀ (fs : FS) (filename language b : List Char) (content : List Nat),
      b.isEmpty = false → fs b = some content →
      ∃ fs2, create_new_file fs filename language (some b) = .ok fs2 ∧
        fs2 filename = some content ∧ fs2 filename = fs b) ∧
    (∀ (store : CStore) (u : CUnit),
      add_unit store u = .error .valueErr) ∧
    (∀ (store : CStore) (key source : List Char),
      create_unit store key source = .error .valueErr) := by
  refine ⟨fun fs fn lg => rfl, fun fs fn lg => rfl, ?_,
    fun st u => rfl, fun st k s => rfl⟩
  intro fs filename language b content hb hfs
  refine ⟨fun p => if p = filename then some content else fs p, ?_, by simp,
    by simp [hfs]⟩
  unfold create_new_file
  simp [hb, hfs]

/-- C5 witness: copying a concrete base produces a filesystem where
the new filename holds the base bytes. -/
theorem create_unsupported_spec_witness :
    ∃ fs2,
      create_new_file
          (fun p => if p = "base".data then some [1, 2] else none)
          "new".data "cs".data (some "base".data) = .ok fs2 ∧
        fs2 "new".data = some [1, 2] ∧
        fs2 "new".data =
          (fun p => if p = "base".data then some [1, 2] else none)
            "base".data :=
  create_unsupported_spec.2.2.1
    (fun p => if p = "base".data then some [1, 2] else none)
    "new".data "cs".data "base".data [1, 2] (by decide) (by decide)

/-- Whether an Except value is a success. -/
def isOkE (e : Except PyErr CStore) : Bool :=
  match e with
  | .ok _ => true
  | .error _ => false

/-- C6: is_valid_base_for_new returns false with no report for a falsy
base, and for a non-empty base returns true exactly when the trial
load succeeds; a failing trial load is caught, reported as a file
parse error and turned into false — the function is total, never
propagating the exception. -/
theorem is_valid_base_spec
    (convertfile : StoreFile → Except PyErr CStore) (fs : FS)
    (monolingual : Bool) :
    (∀ base, truthyOpt base = false →
      is_valid_base_for_new convertfile fs base monolingual =
        (false, [])) ∧
    (∀ b, b.isEmpty = false →
      (isOkE (load convertfile fs (.path b)) = true →
        is_valid_base_for_new convertfile fs (some b) monolingual =
          (true, [])) ∧
      (isOkE (load convertfile fs (.path b)) = false →
        is_valid_base_for_new convertfile fs (some b) monolingual =
          (false, ["File parse error".data]))) := by
  constructor
  · intro base hb
    cases base with
    | none => rfl
    | some s =>
      simp only [truthyOpt, Bool.not_eq_false'] at hb
      simp [is_valid_base_for_new, hb]
  · intro b hb
    cases hl : load convertfile fs (.path b) with
    | ok st =>
      constructor
      · intro h
        simp [is_valid_base_for_new, hb, hl]
      · intro h
        simp [isOkE, hl] at h
    | error e =>
      constructor
      · intro h
        simp [isOkE, hl] at h
      · intro h
        simp [is_valid_base_for_new, hb, hl]

/-- C6 witness: a concrete falsy base, a concrete valid base and a
concrete base whose converter fails. -/
theorem is_valid_base_spec_witness :
    is_valid_base_for_new (fun _ => .ok ⟨[]⟩) (fun _ => some [])
        none true = (false, []) ∧
    is_valid_base_for_new (fun _ => .ok ⟨[]⟩) (fun _ => some [])
        (some "b".data) true = (true, []) ∧
    is_valid_base_for_new (fun _ => .error .parseErr) (fun _ => some [])
        (some "b".data) true = (false, ["File parse error".data]) :=
  ⟨(is_valid_base_spec (fun _ => .ok ⟨[]⟩) (fun _ => some []) true).1
      none (by decide),
   ((is_valid_base_spec (fun _ => .ok ⟨[]⟩) (fun _ => some []) true).2
      "b".data (by decide)).1 rfl,
   ((is_valid_base_spec (fun _ => .error .parseErr) (fun _ => some [])
      true).2 "b".data (by decide)).2 rfl⟩

/-- C7: WindowsRCFormat.save_content language tags.  With a falsy
rcfile.lang the result is the defaults LANG_ENGLISH and
SUBLANG_DEFAULT whatever the sublanguage attribute holds; with a
truthy rcfile.lang that language is used, and the sublanguage only
when it is itself truthy, otherwise SUBLANG_DEFAULT is kept. -/
theorem rc_language_tags_spec (rcLang rcSublang : Option (List Char)) :
    (truthyOpt rcLang = false →
      rcResolveLang rcLang rcSublang =
        ("LANG_ENGLISH".data, "SUBLANG_DEFAULT".data)) ∧
    (truthyOpt rcLang = true →
      (rcResolveLang rcLang rcSublang).1 = rcLang.getD [] ∧
      (truthyOpt rcSublang = false →
        (rcResolveLang rcLang rcSublang).2 = "SUBLANG_DEFAULT".data) ∧
      (truthyOpt rcSublang = true →
        (rcResolveLang rcLang rcSublang).2 = rcSublang.getD [])) := by
  constructor
  · intro h
    simp [rcResolveLang, h]
  · intro h
    refine ⟨by simp [rcResolveLang, h], fun hs => ?_, fun hs => ?_⟩
    · simp [rcResolveLang, h, hs]
    · simp [rcResolveLang, h, hs]

/-- C7 witness: the three concrete tag combinations — no language, a
language without sublanguage, and both present. -/
theorem rc_language_tags_spec_witness :
    rcResolveLang none (some "SUBLANG_X".data) =
      ("LANG_ENGLISH".data, "SUBLANG_DEFAULT".data) ∧
    (rcResolveLang (some "LANG_CZECH".data) none).1 = "LANG_CZECH".data ∧
    (rcResolveLang (some "LANG_CZECH".data) none).2 =
      "SUBLANG_DEFAULT".data ∧
    (rcResolveLang (some "LANG_CZECH".data) (some "SUBLANG_SY".data)).2 =
      "SUBLANG_SY".data :=
  ⟨(rc_language_tags_spec none (some "SUBLANG_X".data)).1 (by decide),
   ((rc_language_tags_spec (some "LANG_CZECH".data) none).2 (by decide)).1,
   ((rc_language_tags_spec (some "LANG_CZECH".data) none).2
      (by decide)).2.1 (by decide),
   ((rc_language_tags_spec (some "LANG_CZECH".data)
      (some "SUBLANG_SY".data)).2 (by decide)).2.2 (by decide)⟩

/-- C9: the monolingual argument of is_valid_base_for_new is never
consulted: both calls agree for every converter, filesystem and base. -/
theorem is_valid_base_ignores_monolingual
    (convertfile : StoreFile → Except PyErr CStore) (fs : FS)
    (base : Option (List Char)) (m1 m2 : Bool) :
    is_valid_base_for_new convertfile fs base m1 =
      is_valid_base_for_new convertfile fs base m2 := rfl

lemma IdMaker_next_mk (n : Nat) : (IdMaker.mk n).next = n := rfl

lemma allocUnits_spec (fn : List Char) (us : List LUnit) :
    ∀ m : IdMaker,
      (allocUnits m fn us).1.map GUnit.id =
        List.range' m.next us.length ∧
      (allocUnits m fn us).2 = ⟨m.next + us.length⟩ := by
  induction us with
  | nil => intro m; simp [allocUnits, List.range']
  | cons u rest ih =>
    intro m
    have h := ih ⟨m.next + 1⟩
    simp only [IdMaker_next_mk] at h
    simp only [allocUnits, allocId]
    constructor
    · simp only [List.map_cons, h.1, List.length_cons, List.range'_succ]
    · rw [h.2]
      simp only [IdMaker.mk.injEq, List.length_cons]
      omega

lemma convertEntries_spec (entries : List StoryEntry) :
    ∀ m : IdMaker,
      (convertEntries m entries).1.map GUnit.id =
        List.range' m.next (totalUnits entries) ∧
      (convertEntries m entries).2 = ⟨m.next + totalUnits entries⟩ := by
  induction entries with
  | nil => intro m; simp [convertEntries, totalUnits, List.range']
  | cons e rest ih =>
    intro m
    have ha := allocUnits_spec e.filename e.units m
    have hr := ih ⟨m.next + e.units.length⟩
    simp only [IdMaker_next_mk] at hr
    simp only [convertEntries]
    rw [ha.2]
    constructor
    · rw [List.map_append, ha.1, hr.1]
      have ht : totalUnits (e :: rest) = totalUnits rest + e.units.length := by
        simp [totalUnits]; omega
      rw [ht, List.range'_append_1]
    · rw [hr.2]
      simp only [IdMaker.mk.injEq, totalUnits, List.map_cons, List.sum_cons]
      omega

/-- C8: one IDML load allocates identifiers from a single shared
allocator across all story entries, in story-entry processing order:
the ids of the produced units are exactly 0, 1, ..., in order, hence
pairwise distinct — in particular two entries each holding a unit with
the same local index still receive distinct global ids — and the
allocation is a pure function of the entry list, hence reproducible
across repeated loads. -/
theorem idml_shared_id_allocator (entries : List StoryEntry) :
    (idmlConvertfile entries).map GUnit.id =
      List.range (totalUnits entries) ∧
    ((idmlConvertfile entries).map GUnit.id).Nodup := by
  have h := (convertEntries_spec entries ⟨0⟩).1
  constructor
  · rw [idmlConvertfile, h, List.range_eq_range']
  · rw [idmlConvertfile, h]
    exact List.nodup_range' 0 (totalUnits entries)

/-- C10: the HTML and OpenDocument converters read the name attribute
of the storefile, so loading an already-open nameless stream fails
with AttributeError whatever its content, while a filesystem path
present on disk resolves to a storefile carrying that path as name and
the load proceeds into the converter with its basename. -/
theorem nameless_stream_load_fails
    (html2poConvert odfBuildStore : List Nat → List Char → CStore)
    (fs : FS) (content : List Nat) :
    load (htmlConvertfile html2poConvert) fs (.stream ⟨none, content⟩) =
      .error .attributeErr ∧
    load (odfConvertfile odfBuildStore) fs (.stream ⟨none, content⟩) =
      .error .attributeErr ∧
    (∀ p bytes, fs p = some bytes →
      resolveStorefile fs (.path p) = .ok ⟨some p, bytes⟩ ∧
      load (htmlConvertfile html2poConvert) fs (.path p) =
        .ok (loadAdjust (html2poConvert bytes (basename p))) ∧
      load (odfConvertfile odfBuildStore) fs (.path p) =
        .ok (loadAdjust (odfBuildStore bytes (basename p)))) := by
  refine ⟨rfl, rfl, ?_⟩
  intro p bytes hp
  have hres : resolveStorefile fs (.path p) = .ok ⟨some p, bytes⟩ := by
    simp [resolveStorefile, hp]
  refine ⟨hres, ?_, ?_⟩
  · simp [load, hres, htmlConvertfile, Bind.bind, Except.bind,
      Functor.map, Except.map, Pure.pure, Except.pure]
  · simp [load, hres, odfConvertfile, Bind.bind, Except.bind,
      Functor.map, Except.map, Pure.pure, Except.pure]

/-- C10 witness: a concrete nameless stream fails, a concrete path
resolves and loads. -/
theorem nameless_stream_load_fails_witness :
    load (htmlConvertfile (fun _ _ => ⟨[]⟩))
        (fun p => if p = "d/f.html".data then some [60] else none)
        (.stream ⟨none, [60]⟩) = .error .attributeErr ∧
    load (htmlConvertfile (fun _ _ => ⟨[]⟩))
        (fun p => if p = "d/f.html".data then some [60] else none)
        (.path "d/f.html".data) =
      .ok (loadAdjust ((fun _ _ => (⟨[]⟩ : CStore)) [60]
        (basename "d/f.html".data))) :=
  ⟨(nameless_stream_load_fails (fun _ _ => ⟨[]⟩) (fun _ _ => ⟨[]⟩)
      (fun p => if p = "d/f.html".data then some [60] else none) [60]).1,
   ((nameless_stream_load_fails (fun _ _ => ⟨[]⟩) (fun _ _ => ⟨[]⟩)
      (fun p => if p = "d/f.html".data then some [60] else none) [60]).2.2
      "d/f.html".data [60] (by decide)).2.1⟩

end Convert
